import Mathlib

/-
  Verification of the vision3D post-processing engine and capture protocol.

  Shallow embedding of `src/postThread.py` and `src/capture.py`:
  pure Python functions become Lean functions, the mutable `self._args`
  dictionary becomes an explicit state record, Python exceptions become
  `Except`, machine floats are idealized as exact rationals, and opaque
  OpenCV image operations (warping, drawing, concatenation) become free
  constructors of an inductive `Frame` type.
-/

namespace Vision3D

/-! ## Parameter values (`self._args` entries, `postThread.py` lines 57-90) -/

/-- A Python value stored in the `self._args` dictionary: int, float, bool,
str or None.  Floats are idealized as exact rationals. -/
inductive PVal where
  | pint (n : ℤ)
  | pfloat (q : ℚ)
  | pbool (b : Bool)
  | pstr (s : String)
  | pnone
deriving DecidableEq

/-- Truncation of a rational toward zero, the behaviour of Python `int(float)`. -/
def ratTrunc (q : ℚ) : ℤ := Int.tdiv q.num (q.den : ℤ)

/-- Python `int(value)`.  `int` of a string parses a decimal integer and raises
on anything else; `int(None)` raises.  Raising is modelled by `Except.error`. -/
def pyInt : PVal → Except Unit ℤ
  | .pint n => .ok n
  | .pfloat q => .ok (ratTrunc q)
  | .pbool b => .ok (if b then 1 else 0)
  | .pstr s => match s.toInt? with
      | some n => .ok n
      | none => .error ()
  | .pnone => .error ()

/-- Python `float(value)`.  Strings holding a decimal fraction are not
modelled (treated as coercion failures); integer strings are parsed. -/
def pyFloat : PVal → Except Unit ℚ
  | .pint n => .ok (n : ℚ)
  | .pfloat q => .ok q
  | .pbool b => .ok (if b then 1 else 0)
  | .pstr s => match s.toInt? with
      | some n => .ok ((n : ℤ) : ℚ)
      | none => .error ()
  | .pnone => .error ()

/-- Python `bool(value)` (truthiness); total. -/
def pyBool : PVal → Bool
  | .pint n => n ≠ 0
  | .pfloat q => q ≠ 0
  | .pbool b => b
  | .pstr s => s ≠ ""
  | .pnone => false

/-- Python `str(value)`; rendering of rationals is approximate but injective
enough for the claims (only used for equality between rendered values). -/
def pyStr : PVal → String
  | .pint n => toString n
  | .pfloat q => toString q.num ++ (if q.den = 1 then "" else "/" ++ toString q.den)
  | .pbool b => if b then "True" else "False"
  | .pstr s => s
  | .pnone => "None"

/-- The type coercion at the top of `onParameterChanged`
(`postThread.py` lines 59-69).  The final `else` arm executes
`assert True, 'unknown type.'` which never fires, leaving `newValue = None`. -/
def coerceParam (objType : String) (value : PVal) : Except Unit PVal :=
  if objType = "int" then (pyInt value).map .pint
  else if objType = "double" then (pyFloat value).map .pfloat
  else if objType = "bool" then .ok (.pbool (pyBool value))
  else if objType = "str" then .ok (.pstr (pyStr value))
  else .ok .pnone

/-- `postThread.py` line 81: `newValue = (newValue//16)*16`
(disparity search width must be divisible by 16; Python `//` floors). -/
def normalizeDisparity (n : ℤ) : ℤ := (Int.fdiv n 16) * 16

/-- `postThread.py` line 83: `newValue = (newValue//2)*2+1`
(block size must be odd). -/
def normalizeBlockSize (n : ℤ) : ℤ := (Int.fdiv n 2) * 2 + 1

/-- Field-specific adaptation of a `numDisparities` value.  Python `//` is
defined on ints and floats and raises `TypeError` on the other types. -/
def adaptDisparity : PVal → Except Unit PVal
  | .pint n => .ok (.pint (normalizeDisparity n))
  | .pfloat q => .ok (.pfloat ((((q / 16 : ℚ).floor : ℤ) : ℚ) * 16))
  | _ => .error ()

/-- Field-specific adaptation of a `blockSize` value. -/
def adaptBlockSize : PVal → Except Unit PVal
  | .pint n => .ok (.pint (normalizeBlockSize n))
  | .pfloat q => .ok (.pfloat ((((q / 2 : ℚ).floor : ℤ) : ℚ) * 2 + 1))
  | _ => .error ()

/-- The mutable state of `PostThread` touched by `onParameterChanged`:
the `self._args` dictionary, the cached `self._stereo` disparity matcher
(keyed by its two construction parameters when present), and the logger
verbosity (`True` iff the logger level is DEBUG). -/
structure PostArgsState where
  args : String → PVal
  stereo : Option (ℤ × ℤ)
  loggerDebug : Bool

/-- `PostThread.onParameterChanged` (`postThread.py` lines 57-90):
coerce the raw value; return unchanged if it equals the stored value;
otherwise refresh the logger level from the stored `DBGpost`, adapt
`numDisparities` / `blockSize` values, reset the cached stereo matcher
when one of those two fields changes, and store the adapted value. -/
def onParameterChanged (st : PostArgsState) (param objType : String) (value : PVal) :
    Except Unit PostArgsState :=
  match coerceParam objType value with
  | .error e => .error e
  | .ok newValue =>
    if st.args param = newValue then .ok st
    else
      let st1 : PostArgsState :=
        { st with loggerDebug := pyBool (st.args "DBGpost") }
      match (if param = "numDisparities" then adaptDisparity newValue else .ok newValue) with
      | .error e => .error e
      | .ok nv1 =>
        match (if param = "blockSize" then adaptBlockSize nv1 else .ok nv1) with
        | .error e => .error e
        | .ok nv2 =>
          let st2 : PostArgsState :=
            if param = "numDisparities" ∨ param = "blockSize" then
              { st1 with stereo := none }
            else st1
          .ok { st2 with args := Function.update st2.args param nv2 }

/-! ### Facts about floor division by 16 and by 2 -/

lemma fdiv_mul_le_self (n : ℤ) (b : ℤ) (hb : 0 < b) : (Int.fdiv n b) * b ≤ n := by
  have hfd : Int.fdiv n b = n / b := Int.fdiv_eq_ediv n (le_of_lt hb)
  rw [hfd]
  exact Int.ediv_mul_le n (ne_of_gt hb)

lemma normalizeDisparity_dvd (n : ℤ) : 16 ∣ normalizeDisparity n :=
  ⟨Int.fdiv n 16, by rw [normalizeDisparity, mul_comm]⟩

lemma normalizeDisparity_le (n : ℤ) : normalizeDisparity n ≤ n :=
  fdiv_mul_le_self n 16 (by norm_num)

lemma normalizeBlockSize_odd (n : ℤ) : Odd (normalizeBlockSize n) :=
  ⟨Int.fdiv n 2, by rw [normalizeBlockSize]; ring⟩

/-- A demonstration args dictionary holding no meaningful values. -/
def demoArgs : String → PVal := fun _ => PVal.pnone

/-- A demonstration state for witnesses. -/
def demoState : PostArgsState := ⟨demoArgs, none, false⟩

/-- A demonstration state whose stored `numDisparities` is the already
normalized value 16. -/
def demoStateDisp16 : PostArgsState :=
  ⟨Function.update demoArgs "numDisparities" (.pint 16), some (16, 5), false⟩

/-- C5: for every integer passed as a new value, the `numDisparities`
normalization yields a multiple of 16 that is at most the input, the
`blockSize` normalization yields an odd value, 17 normalizes to 16 and 10 to
11, and `onParameterChanged` stores exactly the normalized value whenever the
incoming value differs from the stored one. -/
theorem disparity_blocksize_normalization (n m : ℤ) (st : PostArgsState)
    (hd : st.args "numDisparities" ≠ .pint n) (hb : st.args "blockSize" ≠ .pint m) :
    (16 ∣ normalizeDisparity n) ∧ normalizeDisparity n ≤ n
    ∧ Odd (normalizeBlockSize m)
    ∧ normalizeDisparity 17 = 16 ∧ normalizeBlockSize 10 = 11
    ∧ (∃ st1, onParameterChanged st "numDisparities" "int" (.pint n) = .ok st1
        ∧ st1.args "numDisparities" = .pint (normalizeDisparity n))
    ∧ (∃ st2, onParameterChanged st "blockSize" "int" (.pint m) = .ok st2
        ∧ st2.args "blockSize" = .pint (normalizeBlockSize m)) := by
  refine ⟨normalizeDisparity_dvd n, normalizeDisparity_le n, normalizeBlockSize_odd m,
    by decide, by decide, ?_, ?_⟩
  · refine ⟨⟨Function.update st.args "numDisparities" (PVal.pint (normalizeDisparity n)),
        none, pyBool (st.args "DBGpost")⟩, ?_, ?_⟩
    · simp [onParameterChanged, coerceParam, pyInt, Except.map, adaptDisparity, hd]
    · simp [Function.update]
  · refine ⟨⟨Function.update st.args "blockSize" (PVal.pint (normalizeBlockSize m)),
        none, pyBool (st.args "DBGpost")⟩, ?_, ?_⟩
    · simp [onParameterChanged, coerceParam, pyInt, Except.map, adaptBlockSize, hb]
    · simp [Function.update]

/-- Witness for C5: normalizing 17 and 10 through `onParameterChanged` on a
concrete state. -/
theorem disparity_blocksize_normalization_witness :
    (∃ st1, onParameterChanged demoState "numDisparities" "int" (.pint 17) = .ok st1
      ∧ st1.args "numDisparities" = .pint (normalizeDisparity 17))
    ∧ (∃ st2, onParameterChanged demoState "blockSize" "int" (.pint 10) = .ok st2
      ∧ st2.args "blockSize" = .pint (normalizeBlockSize 10)) := by
  have h := disparity_blocksize_normalization 17 10 demoState (by decide) (by decide)
  exact ⟨h.2.2.2.2.2.1, h.2.2.2.2.2.2⟩

/-- C7: if the coerced value equals the currently stored value, the set
operation is a no-op: the returned state is exactly the input state (stored
values, cached stereo matcher and logger verbosity all untouched). -/
theorem onParameterChanged_noop (st : PostArgsState) (param objType : String)
    (value v : PVal) (hc : coerceParam objType value = .ok v)
    (he : st.args param = v) :
    onParameterChanged st param objType value = .ok st := by
  simp [onParameterChanged, hc, he]

/-- Witness for C7: setting `numDisparities` to its already stored value 16
returns the state unchanged. -/
theorem onParameterChanged_noop_witness :
    onParameterChanged demoStateDisp16 "numDisparities" "int" (.pint 16)
      = .ok demoStateDisp16 :=
  onParameterChanged_noop demoStateDisp16 "numDisparities" "int" (.pint 16)
    (.pint 16) rfl (by simp [demoStateDisp16, Function.update])

/-! ## Depth pipeline disparity normalization (`_runDepth`, lines 277-281)

The raw disparity map computed by the stereo matcher is taken as an input
list of integers (one entry per pixel).  `np.min` / `np.max` over a
non-empty array become `listMinZ` / `listMaxZ`; the float scaling is
idealized as exact rational arithmetic; `astype(np.uint8)` truncates, which
on the non-negative values arising here is `Rat.floor` followed by `toNat`. -/

/-- `np.min` over a list of integers (0 on the empty list, which `np.min`
rejects; all claims concern non-empty maps). -/
def listMinZ : List ℤ → ℤ
  | [] => 0
  | x :: xs => xs.foldl min x

/-- `np.max` over a list of integers (0 on the empty list). -/
def listMaxZ : List ℤ → ℤ
  | [] => 0
  | x :: xs => xs.foldl max x

/-- Lines 278-280: `scaledDisparity = disparity - np.min(disparity)` and, when
`np.max(scaledDisparity) > 0`, `scaledDisparity * (255/np.max(scaledDisparity))`. -/
def scaledDisparity (d : List ℤ) : List ℚ :=
  let shifted := d.map (fun v => v - listMinZ d)
  if 0 < listMaxZ shifted then
    shifted.map (fun (v : ℤ) => (v : ℚ) * (255 / (listMaxZ shifted : ℚ)))
  else
    shifted.map (fun (v : ℤ) => (v : ℚ))

/-- Line 281: `frame = scaledDisparity.astype(np.uint8)`; the values are
non-negative and at most 255 (proved below), where the cast is plain
truncation. -/
def runDepthFrame (d : List ℤ) : List ℕ :=
  (scaledDisparity d).map (fun q => (Rat.floor q).toNat)

lemma ratFloor_eq_intFloor (q : ℚ) : Rat.floor q = ⌊q⌋ := rfl

lemma foldl_min_le_init (l : List ℤ) (a : ℤ) : l.foldl min a ≤ a := by
  induction l generalizing a with
  | nil => simp
  | cons x xs ih =>
    calc (x :: xs).foldl min a = xs.foldl min (min a x) := rfl
    _ ≤ min a x := ih (min a x)
    _ ≤ a := min_le_left a x

lemma foldl_min_le_mem (l : List ℤ) (a x : ℤ) (hx : x ∈ l) : l.foldl min a ≤ x := by
  induction l generalizing a with
  | nil => cases hx
  | cons y ys ih =>
    rcases List.mem_cons.mp hx with h | h
    · subst h
      calc (x :: ys).foldl min a = ys.foldl min (min a x) := rfl
      _ ≤ min a x := foldl_min_le_init ys (min a x)
      _ ≤ x := min_le_right a x
    · exact ih (min a y) h

lemma le_foldl_max_init (l : List ℤ) (a : ℤ) : a ≤ l.foldl max a := by
  induction l generalizing a with
  | nil => simp
  | cons x xs ih =>
    calc a ≤ max a x := le_max_left a x
    _ ≤ xs.foldl max (max a x) := ih (max a x)
    _ = (x :: xs).foldl max a := rfl

lemma le_foldl_max_mem (l : List ℤ) (a x : ℤ) (hx : x ∈ l) : x ≤ l.foldl max a := by
  induction l generalizing a with
  | nil => cases hx
  | cons y ys ih =>
    rcases List.mem_cons.mp hx with h | h
    · subst h
      calc x ≤ max a x := le_max_right a x
      _ ≤ ys.foldl max (max a x) := le_foldl_max_init ys (max a x)
      _ = (x :: ys).foldl max a := rfl
    · exact ih (max a y) h

lemma foldl_max_mem_or (l : List ℤ) (a : ℤ) : l.foldl max a = a ∨ l.foldl max a ∈ l := by
  induction l generalizing a with
  | nil => exact Or.inl rfl
  | cons x xs ih =>
    rcases ih (max a x) with h | h
    · rcases le_total a x with hax | hax
      · right
        have : max a x = x := max_eq_right hax
        rw [show (x :: xs).foldl max a = xs.foldl max (max a x) from rfl, h, this]
        exact List.mem_cons_self x xs
      · left
        have : max a x = a := max_eq_left hax
        rw [show (x :: xs).foldl max a = xs.foldl max (max a x) from rfl, h, this]
    · right
      rw [show (x :: xs).foldl max a = xs.foldl max (max a x) from rfl]
      exact List.mem_cons_of_mem x h

lemma foldl_min_mem_or (l : List ℤ) (a : ℤ) : l.foldl min a = a ∨ l.foldl min a ∈ l := by
  induction l generalizing a with
  | nil => exact Or.inl rfl
  | cons x xs ih =>
    rcases ih (min a x) with h | h
    · rcases le_total a x with hax | hax
      · left
        have : min a x = a := min_eq_left hax
        rw [show (x :: xs).foldl min a = xs.foldl min (min a x) from rfl, h, this]
      · right
        have : min a x = x := min_eq_right hax
        rw [show (x :: xs).foldl min a = xs.foldl min (min a x) from rfl, h, this]
        exact List.mem_cons_self x xs
    · right
      rw [show (x :: xs).foldl min a = xs.foldl min (min a x) from rfl]
      exact List.mem_cons_of_mem x h

lemma listMinZ_mem (d : List ℤ) (hd : d ≠ []) : listMinZ d ∈ d := by
  cases d with
  | nil => exact absurd rfl hd
  | cons y ys =>
    rcases foldl_min_mem_or ys y with h | h
    · rw [show listMinZ (y :: ys) = ys.foldl min y from rfl, h]
      exact List.mem_cons_self y ys
    · exact List.mem_cons_of_mem y h

lemma listMinZ_le_mem (d : List ℤ) (x : ℤ) (hx : x ∈ d) : listMinZ d ≤ x := by
  cases d with
  | nil => cases hx
  | cons y ys =>
    rcases List.mem_cons.mp hx with h | h
    · subst h
      exact foldl_min_le_init ys x
    · exact foldl_min_le_mem ys y x h

lemma le_listMaxZ_mem (d : List ℤ) (x : ℤ) (hx : x ∈ d) : x ≤ listMaxZ d := by
  cases d with
  | nil => cases hx
  | cons y ys =>
    rcases List.mem_cons.mp hx with h | h
    · subst h
      exact le_foldl_max_init ys x
    · exact le_foldl_max_mem ys y x h

lemma listMaxZ_mem (d : List ℤ) (hd : d ≠ []) : listMaxZ d ∈ d := by
  cases d with
  | nil => exact absurd rfl hd
  | cons y ys =>
    rcases foldl_max_mem_or ys y with h | h
    · rw [show listMaxZ (y :: ys) = ys.foldl max y from rfl, h]
      exact List.mem_cons_self y ys
    · exact List.mem_cons_of_mem y h

/-- Every element of a shifted disparity map is bounded by the map's maximum
and is non-negative. -/
lemma shifted_bounds (d : List ℤ) (x : ℤ)
    (hx : x ∈ d.map (fun v => v - listMinZ d)) :
    0 ≤ x ∧ x ≤ listMaxZ (d.map (fun v => v - listMinZ d)) := by
  rcases List.mem_map.mp hx with ⟨v, hv, rfl⟩
  exact ⟨sub_nonneg.mpr (listMinZ_le_mem d v hv), le_listMaxZ_mem _ _ hx⟩

/-- C6: the depth pipeline's disparity normalization keeps every output pixel
in [0, 255] (the output type is ℕ, so the lower bound is implicit); a constant
raw disparity map yields an all-zero output; and whenever the shifted map has
a positive maximum, the value 255 is attained (the maximum maps to 255). -/
theorem depth_normalization_range (d : List ℤ) :
    (∀ v ∈ runDepthFrame d, v ≤ 255)
    ∧ ((∀ a ∈ d, ∀ b ∈ d, a = b) → ∀ v ∈ runDepthFrame d, v = 0)
    ∧ (0 < listMaxZ (d.map (fun v => v - listMinZ d)) → 255 ∈ runDepthFrame d) := by
  refine ⟨?_, ?_, ?_⟩
  · intro v hv
    rcases List.mem_map.mp hv with ⟨q, hq, rfl⟩
    rw [scaledDisparity] at hq
    split at hq
    case isTrue hpos =>
      rcases List.mem_map.mp hq with ⟨x, hxmem, rfl⟩
      rcases shifted_bounds d x hxmem with ⟨hx0, hxm⟩
      set mx := listMaxZ (d.map (fun v => v - listMinZ d)) with hmx
      have hmxQ : (0 : ℚ) < (mx : ℚ) := by exact_mod_cast hpos
      have hq255 : (x : ℚ) * (255 / (mx : ℚ)) ≤ 255 := by
        have hxle : (x : ℚ) ≤ (mx : ℚ) := by exact_mod_cast hxm
        have hdiv : (0 : ℚ) ≤ 255 / (mx : ℚ) := by positivity
        calc (x : ℚ) * (255 / (mx : ℚ)) ≤ (mx : ℚ) * (255 / (mx : ℚ)) :=
          mul_le_mul_of_nonneg_right hxle hdiv
        _ = 255 := by field_simp
      have hfl : Rat.floor ((x : ℚ) * (255 / (mx : ℚ))) ≤ 255 := by
        rw [ratFloor_eq_intFloor]
        have h2 : ⌊(x : ℚ) * (255 / (mx : ℚ))⌋ ≤ ⌊(255 : ℚ)⌋ := Int.floor_le_floor hq255
        simpa using h2
      omega
    case isFalse hnp =>
      rcases List.mem_map.mp hq with ⟨x, hxmem, rfl⟩
      rcases shifted_bounds d x hxmem with ⟨hx0, hxm⟩
      have hx : x = 0 := le_antisymm (by omega) hx0
      subst hx
      simp only [Int.cast_zero, ratFloor_eq_intFloor, Int.floor_zero]
      decide
  · intro hconst v hv
    rcases List.mem_map.mp hv with ⟨q, hq, rfl⟩
    have hz : ∀ x ∈ d.map (fun v => v - listMinZ d), x = 0 := by
      intro x hx
      rcases List.mem_map.mp hx with ⟨w, hw, rfl⟩
      have hne : d ≠ [] := by
        intro h
        rw [h] at hw
        cases hw
      have hmem : listMinZ d ∈ d := listMinZ_mem d hne
      have := hconst w hw (listMinZ d) hmem
      omega
    have hq0 : q = 0 := by
      rw [scaledDisparity] at hq
      split at hq
      all_goals
        rcases List.mem_map.mp hq with ⟨x, hxmem, rfl⟩
        rw [hz x hxmem]
        simp
    rw [hq0, ratFloor_eq_intFloor]
    simp
  · intro hpos
    have hne : d.map (fun v => v - listMinZ d) ≠ [] := by
      intro h
      rw [h] at hpos
      simp [listMaxZ] at hpos
    have hmem : listMaxZ (d.map (fun v => v - listMinZ d)) ∈ d.map (fun v => v - listMinZ d) :=
      listMaxZ_mem _ hne
    have h0 : (0 : ℚ) < (listMaxZ (d.map (fun v => v - listMinZ d)) : ℚ) := by
      exact_mod_cast hpos
    have h255 : ((listMaxZ (d.map (fun v => v - listMinZ d)) : ℤ) : ℚ)
        * (255 / ((listMaxZ (d.map (fun v => v - listMinZ d)) : ℤ) : ℚ)) = 255 := by
      field_simp
    rw [runDepthFrame]
    refine List.mem_map.mpr ⟨((listMaxZ (d.map (fun v => v - listMinZ d)) : ℤ) : ℚ)
        * (255 / ((listMaxZ (d.map (fun v => v - listMinZ d)) : ℤ) : ℚ)), ?_, ?_⟩
    · rw [scaledDisparity]
      rw [if_pos hpos]
      exact List.mem_map.mpr ⟨_, hmem, rfl⟩
    · rw [h255, ratFloor_eq_intFloor]
      have hf : ⌊(255 : ℚ)⌋ = 255 := by norm_num
      rw [hf]
      rfl

/-- Witness for C6: the raw map `[1, 3]` attains output value 255, and the
constant raw map `[2, 2]` yields output value 0. -/
theorem depth_normalization_range_witness :
    255 ∈ runDepthFrame [1, 3] ∧ (0 : ℕ) = 0 :=
  ⟨(depth_normalization_range [1, 3]).2.2 (by decide),
   (depth_normalization_range [2, 2]).2.1 (by decide) 0 (by decide)⟩

/-! ## Keypoint matching (`_computeKeypoints`, lines 286-324)

`detectAndCompute` is an opaque capability: the embedding takes the
per-side keypoint lists as inputs and the pairwise descriptor distance as a
function of (query index, train index).  `bf.knnMatch(dscL, dscR, k=2)`
returns, per left descriptor, the up-to-2 nearest right descriptors in
ascending distance order (ties resolved to the lower index, which is
immaterial for the claims, all settled on inputs with strict distances). -/

/-- An OpenCV keypoint: only its position is relevant here. -/
structure Kpt where
  pt : ℚ × ℚ
deriving DecidableEq

/-- An OpenCV `DMatch`: query (left) index, train (right) index, distance. -/
structure DMatch where
  queryIdx : ℕ
  trainIdx : ℕ
  distance : ℚ
deriving DecidableEq

/-- Index of a minimal-distance candidate in `js` (first minimum on ties);
`none` on the empty list. -/
def argminIdx (d : ℕ → ℚ) (js : List ℕ) : Option ℕ :=
  js.foldl
    (fun acc j =>
      match acc with
      | none => some j
      | some k0 => if d j < d k0 then some j else some k0)
    none

/-- The up-to-2 nearest train descriptors for query `i`, ascending by
distance (`knnMatch` with `k = 2` for one query row). -/
def top2 (i nR : ℕ) (dist : ℕ → ℕ → ℚ) : List DMatch :=
  let js := List.range nR
  match argminIdx (dist i) js with
  | none => []
  | some j1 =>
    match argminIdx (dist i) (js.filter (fun j => j != j1)) with
    | none => [⟨i, j1, dist i j1⟩]
    | some j2 => [⟨i, j1, dist i j1⟩, ⟨i, j2, dist i j2⟩]

/-- `bf.knnMatch(dscL, dscR, k=2)` (line 310): one candidate list per left
descriptor. -/
def knnMatch2 (nL nR : ℕ) (dist : ℕ → ℕ → ℚ) : List (List DMatch) :=
  (List.range nL).map (fun i => top2 i nR dist)

/-- One step of the ratio-test loop (lines 317-319): Python's
`for m1, m2 in matches` unpacks each candidate list and raises `ValueError`
when it does not hold exactly two entries; a retained `m1` is appended. -/
def ratioStep (acc : List DMatch) (e : List DMatch) : Except String (List DMatch) :=
  match e with
  | [m1, m2] =>
    .ok (if m1.distance < (0.6 : ℚ) * m2.distance then acc ++ [m1] else acc)
  | _ => .error "ValueError"

/-- The ratio-test loop over all candidate lists (lines 316-319). -/
def ratioFilterE (ms : List (List DMatch)) : Except String (List DMatch) :=
  ms.foldlM ratioStep []

/-- `_computeKeypoints` (lines 286-324): guard the zero-keypoint case, run
the 2-NN matcher, apply the ratio test (which may raise), and guard the
empty-result cases.  On the no-match guard the source returns the raw `matches`
list, which is empty there, so the empty list is returned in every guard. -/
def computeKeypoints (kptL kptR : List Kpt) (dist : ℕ → ℕ → ℚ) :
    Except String (List Kpt × List Kpt × List DMatch × String) :=
  if kptL.length = 0 ∨ kptR.length = 0 then
    .ok (kptL, kptR, [], "KO no keypoint")
  else
    if (knnMatch2 kptL.length kptR.length dist).length = 0 then
      .ok (kptL, kptR, [], "KO no match")
    else
      match ratioFilterE (knnMatch2 kptL.length kptR.length dist) with
      | .error e => .error e
      | .ok bestMatches =>
        if bestMatches.length = 0 then .ok (kptL, kptR, bestMatches, "KO no best match")
        else .ok (kptL, kptR, bestMatches, "")

/-- The ratio-test loop on well-formed 2-element candidate lists never raises
and keeps exactly the pairs whose best distance is strictly below 0.6 times
the second-best distance, starting from any accumulator. -/
lemma ratioFilterE_foldl_wf (pairs : List (DMatch × DMatch)) (acc : List DMatch) :
    List.foldlM ratioStep acc (pairs.map (fun p => [p.1, p.2])) =
      .ok (acc ++
        (pairs.filter (fun p => decide (p.1.distance < (0.6 : ℚ) * p.2.distance))).map
          Prod.fst) := by
  induction pairs generalizing acc with
  | nil => simp [List.foldlM_nil, pure, Except.pure]
  | cons p ps ih =>
    rw [List.map_cons, List.foldlM_cons]
    by_cases hc : p.1.distance < (0.6 : ℚ) * p.2.distance
    · rw [show ratioStep acc [p.1, p.2] = .ok (acc ++ [p.1]) by
        simp [ratioStep, if_pos hc]]
      show List.foldlM ratioStep (acc ++ [p.1]) (ps.map (fun p => [p.1, p.2])) = _
      rw [ih (acc ++ [p.1])]
      simp [List.filter_cons, hc]
    · rw [show ratioStep acc [p.1, p.2] = .ok acc by
        simp [ratioStep, if_neg hc]]
      show List.foldlM ratioStep acc (ps.map (fun p => [p.1, p.2])) = _
      rw [ih acc]
      simp [List.filter_cons, hc]

/-- C4: over candidate pairs, the ratio test keeps exactly the pairs with
`d1 < 0.6 * d2` (so a match is retained iff its best distance is strictly
below 0.6 times the second-best), and a tie `d1 = 0.6 * d2` is rejected. -/
theorem lowe_ratio_test_characterization :
    (∀ pairs : List (DMatch × DMatch),
      ratioFilterE (pairs.map (fun p => [p.1, p.2])) =
        .ok ((pairs.filter
          (fun p => decide (p.1.distance < (0.6 : ℚ) * p.2.distance))).map Prod.fst))
    ∧ (∀ m1 m2 : DMatch, m1.distance = (0.6 : ℚ) * m2.distance →
        ratioFilterE [[m1, m2]] = .ok []) := by
  constructor
  · intro pairs
    rw [ratioFilterE, ratioFilterE_foldl_wf pairs []]
    simp
  · intro m1 m2 h
    have : ¬ m1.distance < (0.6 : ℚ) * m2.distance := by rw [h]; exact lt_irrefl _
    simp [ratioFilterE, ratioStep, this]

/-- Witness for C4: the tie pair (0.6, 1) is rejected; the pair (0.5, 1) is
retained. -/
theorem lowe_ratio_test_characterization_witness :
    ratioFilterE [[⟨0, 0, (0.6 : ℚ)⟩, ⟨0, 1, 1⟩]] = .ok []
    ∧ ratioFilterE [([(⟨0, 0, (0.5 : ℚ)⟩ : DMatch), ⟨0, 1, 1⟩] : List DMatch)] =
        .ok [⟨0, 0, (0.5 : ℚ)⟩] :=
  ⟨lowe_ratio_test_characterization.2 ⟨0, 0, (0.6 : ℚ)⟩ ⟨0, 1, 1⟩ (by norm_num),
   by
    have h := lowe_ratio_test_characterization.1
      [((⟨0, 0, (0.5 : ℚ)⟩ : DMatch), (⟨0, 1, 1⟩ : DMatch))]
    have hc : ((0.5 : ℚ)) < (0.6 : ℚ) := by norm_num
    simpa [List.filter_cons, hc] using h⟩

/-- With a single train descriptor, the 2-NN matcher returns a one-entry
candidate list for every query. -/
lemma top2_single_train (i : ℕ) (dist : ℕ → ℕ → ℚ) :
    top2 i 1 dist = [⟨i, 0, dist i 0⟩] := rfl

/-- The ratio-test loop raises `ValueError` as soon as it meets a one-entry
candidate list. -/
lemma ratioFilterE_singleton_head (m : DMatch) (t : List (List DMatch)) :
    ratioFilterE ([m] :: t) = .error "ValueError" := rfl

/-- C10: whenever the left side has at least one keypoint and the right side
has exactly one descriptor, `_computeKeypoints` raises out of the ratio-test
unpacking instead of returning, and the raised error is none of the
pipeline's specific failure messages. -/
theorem knn_unpack_failure (kptL kptR : List Kpt) (dist : ℕ → ℕ → ℚ)
    (hL : kptL ≠ []) (hR : kptR.length = 1) :
    computeKeypoints kptL kptR dist = .error "ValueError"
    ∧ "ValueError" ∉ (["KO no keypoint", "KO no match", "KO no best match"] : List String) := by
  refine ⟨?_, by decide⟩
  cases kptL with
  | nil => exact absurd rfl hL
  | cons k ks =>
    have hknn : knnMatch2 (k :: ks).length kptR.length dist
        = top2 0 1 dist :: ((List.range ks.length).map (fun j => top2 (Nat.succ j) 1 dist)) := by
      rw [hR, knnMatch2]
      rw [show (k :: ks).length = ks.length + 1 from rfl]
      rw [List.range_succ_eq_map, List.map_cons, List.map_map]
      rfl
    have herr : ratioFilterE (knnMatch2 (k :: ks).length kptR.length dist)
        = .error "ValueError" := by
      rw [hknn, top2_single_train]
      exact ratioFilterE_singleton_head _ _
    rw [computeKeypoints, if_neg (by simp [hR]), if_neg (by rw [hknn]; simp), herr]

/-- Witness for C10: one keypoint on each side. -/
theorem knn_unpack_failure_witness :
    computeKeypoints [⟨(0, 0)⟩] [⟨(0, 0)⟩] (fun _ _ => 0) = .error "ValueError"
    ∧ "ValueError" ∉ (["KO no keypoint", "KO no match", "KO no best match"] : List String) :=
  knn_unpack_failure [⟨(0, 0)⟩] [⟨(0, 0)⟩] (fun _ _ => 0) (by simp) rfl

/-! ## Frames and the Stitch pipeline (`_runStitch`, lines 340-382)

Frames are opaque pixel buffers; the OpenCV geometry (homography
estimation, perspective warp, overlay, crop, resize) is modelled by free
constructors, so the embedding tracks which operations produced the output.
`np.ones(frameL.shape, np.uint8)` — the filler frame of the same shape as a
given frame — is the constructor `Frame.ones`. -/

/-- An image buffer: a raw input frame, a filler of ones shaped like another
frame, a horizontal concatenation, or the opaque result of the stitch
geometry (warp of the right frame composed with the left overlay), a crop, or
a resize. -/
inductive Frame where
  | raw (id : ℕ)
  | ones (like : Frame)
  | hconcat (a b : Frame)
  | warped (l r : Frame)
  | cropped (a : Frame)
  | resized (a : Frame)
deriving DecidableEq

/-- Python `'%03d' % n` for a natural number: zero-pad to (at least) width 3. -/
def fmt3 (n : ℕ) : String :=
  if n < 10 then "00" ++ toString n
  else if n < 100 then "0" ++ toString n
  else toString n

/-- `_runStitch` (lines 340-382): run `_computeKeypoints` (its message is
discarded — line 345 resets `msg` to the empty string); with strictly more
than `minMatchCount = 10` surviving matches run the homography/warp/overlay
path (opaque geometry), optionally crop, and resize; otherwise return the
ones-filler with the `KO not enough matches found` message. -/
def runStitch (frameL frameR : Frame) (kptL kptR : List Kpt) (dist : ℕ → ℕ → ℚ)
    (kptMode : String) (crop : Bool) : Except String (Frame × String × String) :=
  match computeKeypoints kptL kptR dist with
  | .error e => .error e
  | .ok (_, _, bestMatches, _) =>
    if bestMatches.length > 10 then
      .ok (Frame.resized (if crop then Frame.cropped (Frame.warped frameL frameR)
            else Frame.warped frameL frameR),
          "BGR",
          "OK (" ++ fmt3 bestMatches.length ++ " " ++ kptMode ++ " keypoints)")
    else
      .ok (Frame.ones frameL, "GRAY",
          "KO not enough matches found (" ++ fmt3 bestMatches.length ++ "/" ++ fmt3 10 ++ ")")

/-- A keypoint at the origin, used in concrete stitch scenarios. -/
def cexKpt : Kpt := ⟨(0, 0)⟩

/-- A distance function under which every query retains its best match:
distance 0 to train descriptor 0 and distance 1 to every other. -/
def cexDist : ℕ → ℕ → ℚ := fun _ j => if j = 0 then 0 else 1

/-- The candidate pairs produced on the concrete scenario: every query sees
train descriptor 0 at distance 0 and train descriptor 1 at distance 1. -/
def cexPairs (n : ℕ) : List (DMatch × DMatch) :=
  (List.range n).map (fun i => (⟨i, 0, 0⟩, ⟨i, 1, 1⟩))

lemma cex_knnMatch2 (n : ℕ) :
    knnMatch2 n 2 cexDist = (cexPairs n).map (fun p => [p.1, p.2]) := by
  rw [cexPairs, List.map_map]
  rfl

lemma cex_best (n : ℕ) :
    ratioFilterE (knnMatch2 n 2 cexDist)
      = .ok ((List.range n).map (fun i => ⟨i, 0, 0⟩)) := by
  rw [cex_knnMatch2, ratioFilterE, ratioFilterE_foldl_wf]
  have hall : (cexPairs n).filter
      (fun p => decide (p.1.distance < (0.6 : ℚ) * p.2.distance)) = cexPairs n := by
    apply List.filter_eq_self.mpr
    intro a ha
    rcases List.mem_map.mp ha with ⟨i, _, rfl⟩
    norm_num
  rw [hall, List.nil_append, cexPairs, List.map_map]
  rfl

lemma cex_computeKeypoints (n : ℕ) (hn : n ≠ 0) :
    computeKeypoints (List.replicate n cexKpt) [cexKpt, cexKpt] cexDist
      = .ok (List.replicate n cexKpt, [cexKpt, cexKpt],
          (List.range n).map (fun i => ⟨i, 0, 0⟩), "") := by
  rw [computeKeypoints]
  rw [if_neg (by simp [hn])]
  rw [if_neg (by simp [cex_knnMatch2, cexPairs, hn])]
  simp only [List.length_replicate, List.length_cons, List.length_nil]
  norm_num
  rw [cex_best n]
  simp [hn]

/-- Counterexample for C1: with exactly 10 surviving matches the Stitch
pipeline does not proceed to homography estimation but produces the filler
frame and the `KO not enough matches found (010/010)` message; and with 6
surviving matches the message is `KO not enough matches found (006/010)`,
not `insufficient matches (6/10)`. -/
theorem stitch_threshold_counterexample :
    runStitch (Frame.raw 0) (Frame.raw 1) (List.replicate 10 cexKpt) [cexKpt, cexKpt]
        cexDist "ORB" false
      = .ok (Frame.ones (Frame.raw 0), "GRAY", "KO not enough matches found (010/010)")
    ∧ runStitch (Frame.raw 0) (Frame.raw 1) (List.replicate 6 cexKpt) [cexKpt, cexKpt]
        cexDist "ORB" false
      = .ok (Frame.ones (Frame.raw 0), "GRAY", "KO not enough matches found (006/010)")
    ∧ "KO not enough matches found (006/010)" ≠ "insufficient matches (6/10)" := by
  refine ⟨?_, ?_, by decide⟩
  · rw [runStitch, cex_computeKeypoints 10 (by decide)]
    rw [if_neg (by simp)]
    rfl
  · rw [runStitch, cex_computeKeypoints 6 (by decide)]
    rw [if_neg (by simp)]
    rfl

/-- C1 (amended): stitching proceeds (homography path, `BGR` output, `OK`
message) iff strictly more than 10 matches survive the ratio test; with 10 or
fewer surviving matches the output is the ones-filler of the left frame,
format `GRAY`, and the message states the actual and required counts,
zero-padded to three digits. -/
theorem stitch_threshold_amended (fL fR : Frame) (kptL kptR : List Kpt)
    (dist : ℕ → ℕ → ℚ) (mode : String) (crop : Bool)
    (kL kR : List Kpt) (best : List DMatch) (m : String)
    (h : computeKeypoints kptL kptR dist = .ok (kL, kR, best, m)) :
    (10 < best.length →
      runStitch fL fR kptL kptR dist mode crop =
        .ok (Frame.resized (if crop then Frame.cropped (Frame.warped fL fR)
              else Frame.warped fL fR),
            "BGR", "OK (" ++ fmt3 best.length ++ " " ++ mode ++ " keypoints)"))
    ∧ (best.length ≤ 10 →
      runStitch fL fR kptL kptR dist mode crop =
        .ok (Frame.ones fL, "GRAY",
            "KO not enough matches found (" ++ fmt3 best.length ++ "/" ++ fmt3 10 ++ ")")) := by
  constructor
  · intro hgt
    rw [runStitch, h]
    exact if_pos hgt
  · intro hle
    rw [runStitch, h]
    exact if_neg (by omega)

/-- Witness for C1's amended theorem: the 6-match scenario takes the filler
branch. -/
theorem stitch_threshold_amended_witness :
    runStitch (Frame.raw 0) (Frame.raw 1) (List.replicate 6 cexKpt) [cexKpt, cexKpt]
        cexDist "ORB" false
      = .ok (Frame.ones (Frame.raw 0), "GRAY",
            "KO not enough matches found ("
              ++ fmt3 ((List.range 6).map (fun i => (⟨i, 0, 0⟩ : DMatch))).length
              ++ "/" ++ fmt3 10 ++ ")") :=
  (stitch_threshold_amended (Frame.raw 0) (Frame.raw 1) (List.replicate 6 cexKpt)
      [cexKpt, cexKpt] cexDist "ORB" false (List.replicate 6 cexKpt) [cexKpt, cexKpt]
      ((List.range 6).map (fun i => (⟨i, 0, 0⟩ : DMatch))) ""
      (cex_computeKeypoints 6 (by decide))).2 (by decide)

/-! ## Engine loop body (`PostThread.run`, lines 92-150)

One iteration of the processing part of `run` (lines 111-143): the locals
`frame, fmt, msg` are initialised to the ones-filler of the left frame,
`'GRAY'` and `'None'`; the mode is dispatched through the `if/elif` chain
and each pipeline call either returns a triple or raises; a raise is caught
by the bare `except` which installs `'OpenCV exception!...'` only when
`msg == ''`.  The five pipelines are opaque behaviours here (each call
returns a triple or raises); `np.concatenate` is modelled as a total
operation, so a raise can only come from a pipeline call — exactly the
scope of the engine-level claims.  The published message additionally gets
the `' - time ...'` suffix appended verbatim, which is not modelled. -/

/-- The outcome of one pipeline call: a `(frame, fmt, msg)` triple, or a
raised exception. -/
inductive PipeOut where
  | ok (frame : Frame) (fmt : String) (msg : String)
  | exn
deriving DecidableEq

/-- The five mode pipelines as opaque behaviours: `_runDetection` and
`_runSegmentation` are called once per side, the other three once per pair. -/
structure PipeBeh where
  detect : Frame → PipeOut
  depth : Frame → Frame → PipeOut
  keypoints : Frame → Frame → PipeOut
  stitch : Frame → Frame → PipeOut
  seg : Frame → PipeOut

/-- The five analysis modes. -/
inductive Mode where
  | detection
  | depth
  | keypoints
  | stitch
  | segmentation
deriving DecidableEq

/-- The five boolean mode flags in `self._args`. -/
structure ModeFlags where
  detection : Bool
  depth : Bool
  keypoints : Bool
  stitch : Bool
  segmentation : Bool
deriving DecidableEq

/-- The observable result of one engine iteration: the published locals plus
which pipeline the `if/elif` chain dispatched to and whether the dispatched
branch raised. -/
structure IterOut where
  frame : Frame
  fmt : String
  msg : String
  executed : Option Mode
  raised : Bool
deriving DecidableEq

/-- The detection branch (lines 119-123): `_runDetection` on each side (the
second call overwrites `fmt`), then the combined message and the horizontal
concatenation.  On a raise the locals keep their last assigned values. -/
def detectionBranch (b : PipeBeh) (detectMode : String) (frameL frameR : Frame) : IterOut :=
  match b.detect frameL with
  | .exn => ⟨Frame.ones frameL, "GRAY", "None", some .detection, true⟩
  | .ok fL fmtL msgL =>
    match b.detect frameR with
    | .exn => ⟨Frame.ones frameL, fmtL, "None", some .detection, true⟩
    | .ok fR fmtR msgR =>
      ⟨Frame.hconcat fL fR, fmtR,
        "detection " ++ detectMode ++ ": " ++ msgL ++ ", " ++ msgR,
        some .detection, false⟩

/-- The depth branch (lines 124-126). -/
def depthBranch (b : PipeBeh) (frameL frameR : Frame) : IterOut :=
  match b.depth frameL frameR with
  | .exn => ⟨Frame.ones frameL, "GRAY", "None", some .depth, true⟩
  | .ok fr fm ms => ⟨fr, fm, "depth: " ++ ms, some .depth, false⟩

/-- The keypoints branch (lines 127-129). -/
def keypointsBranch (b : PipeBeh) (kptMode : String) (frameL frameR : Frame) : IterOut :=
  match b.keypoints frameL frameR with
  | .exn => ⟨Frame.ones frameL, "GRAY", "None", some .keypoints, true⟩
  | .ok fr fm ms => ⟨fr, fm, kptMode ++ " keypoints: " ++ ms, some .keypoints, false⟩

/-- The stitch branch (lines 130-132). -/
def stitchBranch (b : PipeBeh) (frameL frameR : Frame) : IterOut :=
  match b.stitch frameL frameR with
  | .exn => ⟨Frame.ones frameL, "GRAY", "None", some .stitch, true⟩
  | .ok fr fm ms => ⟨fr, fm, "stitch: " ++ ms, some .stitch, false⟩

/-- The segmentation branch (lines 133-137): `_runSegmentation` on each side,
then the combined message and the horizontal concatenation. -/
def segBranch (b : PipeBeh) (segMode : String) (frameL frameR : Frame) : IterOut :=
  match b.seg frameL with
  | .exn => ⟨Frame.ones frameL, "GRAY", "None", some .segmentation, true⟩
  | .ok fL fmtL msgL =>
    match b.seg frameR with
    | .exn => ⟨Frame.ones frameL, fmtL, "None", some .segmentation, true⟩
    | .ok fR fmtR msgR =>
      ⟨Frame.hconcat fL fR, fmtR,
        segMode ++ " segmentation: " ++ msgL ++ ", " ++ msgR,
        some .segmentation, false⟩

/-- The `try` body (lines 113-137): locals initialised to the ones-filler of
the left frame, `'GRAY'` and `'None'`, then the `if/elif` chain over the mode
flags. -/
def runIterationBody (f : ModeFlags) (b : PipeBeh) (detectMode kptMode segMode : String)
    (frameL frameR : Frame) : IterOut :=
  if f.detection then detectionBranch b detectMode frameL frameR
  else if f.depth then depthBranch b frameL frameR
  else if f.keypoints then keypointsBranch b kptMode frameL frameR
  else if f.stitch then stitchBranch b frameL frameR
  else if f.segmentation then segBranch b segMode frameL frameR
  else ⟨Frame.ones frameL, "GRAY", "None", none, false⟩

/-- One engine iteration including the `except` clause (lines 138-140): after
a raise, `msg` is replaced by `'OpenCV exception!...'` only when it equals
the empty string. -/
def runIteration (f : ModeFlags) (b : PipeBeh) (detectMode kptMode segMode : String)
    (frameL frameR : Frame) : IterOut :=
  let r := runIterationBody f b detectMode kptMode segMode frameL frameR
  if r.raised = true ∧ r.msg = "" then
    ⟨r.frame, r.fmt, "OpenCV exception!...", r.executed, r.raised⟩
  else r

/-- Whether a mode's flag is set. -/
def modeActive (f : ModeFlags) : Mode → Bool
  | .detection => f.detection
  | .depth => f.depth
  | .keypoints => f.keypoints
  | .stitch => f.stitch
  | .segmentation => f.segmentation

/-- The fixed priority order of the spec: Detection > Depth > Keypoints >
Stitch > Segmentation. -/
def modePriority : List Mode :=
  [.detection, .depth, .keypoints, .stitch, .segmentation]

/-- Modelled from the spec words (refinement side): the highest-priority
active mode, first true wins, `none` when no flag is set. -/
def specSelectMode (f : ModeFlags) : Option Mode :=
  (modePriority.filter (modeActive f)).head?

lemma detectionBranch_executed (b : PipeBeh) (dM : String) (l r : Frame) :
    (detectionBranch b dM l r).executed = some .detection := by
  rw [detectionBranch]
  split
  · rfl
  · split <;> rfl

lemma depthBranch_executed (b : PipeBeh) (l r : Frame) :
    (depthBranch b l r).executed = some .depth := by
  rw [depthBranch]
  split <;> rfl

lemma keypointsBranch_executed (b : PipeBeh) (kM : String) (l r : Frame) :
    (keypointsBranch b kM l r).executed = some .keypoints := by
  rw [keypointsBranch]
  split <;> rfl

lemma stitchBranch_executed (b : PipeBeh) (l r : Frame) :
    (stitchBranch b l r).executed = some .stitch := by
  rw [stitchBranch]
  split <;> rfl

lemma segBranch_executed (b : PipeBeh) (sM : String) (l r : Frame) :
    (segBranch b sM l r).executed = some .segmentation := by
  rw [segBranch]
  split
  · rfl
  · split <;> rfl

lemma detectionBranch_raised (b : PipeBeh) (dM : String) (l r : Frame)
    (h : (detectionBranch b dM l r).raised = true) :
    (detectionBranch b dM l r).frame = Frame.ones l
    ∧ (detectionBranch b dM l r).msg = "None" := by
  rw [detectionBranch] at h ⊢
  split at h
  · exact ⟨rfl, rfl⟩
  · split at h
    · exact ⟨rfl, rfl⟩
    · simp at h

lemma depthBranch_raised (b : PipeBeh) (l r : Frame)
    (h : (depthBranch b l r).raised = true) :
    (depthBranch b l r).frame = Frame.ones l ∧ (depthBranch b l r).msg = "None" := by
  rw [depthBranch] at h ⊢
  split at h
  · exact ⟨rfl, rfl⟩
  · simp at h

lemma keypointsBranch_raised (b : PipeBeh) (kM : String) (l r : Frame)
    (h : (keypointsBranch b kM l r).raised = true) :
    (keypointsBranch b kM l r).frame = Frame.ones l
    ∧ (keypointsBranch b kM l r).msg = "None" := by
  rw [keypointsBranch] at h ⊢
  split at h
  · exact ⟨rfl, rfl⟩
  · simp at h

lemma stitchBranch_raised (b : PipeBeh) (l r : Frame)
    (h : (stitchBranch b l r).raised = true) :
    (stitchBranch b l r).frame = Frame.ones l ∧ (stitchBranch b l r).msg = "None" := by
  rw [stitchBranch] at h ⊢
  split at h
  · exact ⟨rfl, rfl⟩
  · simp at h

lemma segBranch_raised (b : PipeBeh) (sM : String) (l r : Frame)
    (h : (segBranch b sM l r).raised = true) :
    (segBranch b sM l r).frame = Frame.ones l ∧ (segBranch b sM l r).msg = "None" := by
  rw [segBranch] at h ⊢
  split at h
  · exact ⟨rfl, rfl⟩
  · split at h
    · exact ⟨rfl, rfl⟩
    · simp at h

/-- The dispatched branch is the highest-priority active mode. -/
lemma runIterationBody_executed (f : ModeFlags) (b : PipeBeh)
    (dM kM sM : String) (l r : Frame) :
    (runIterationBody f b dM kM sM l r).executed = specSelectMode f := by
  obtain ⟨fd, fp, fk, fs, fg⟩ := f
  cases fd <;> cases fp <;> cases fk <;> cases fs <;> cases fg <;>
    simp [runIterationBody, specSelectMode, modePriority, modeActive,
      detectionBranch_executed, depthBranch_executed, keypointsBranch_executed,
      stitchBranch_executed, segBranch_executed]

/-- In every raising iteration the locals `frame` and `msg` still hold their
initial values. -/
lemma runIterationBody_raised (f : ModeFlags) (b : PipeBeh)
    (dM kM sM : String) (l r : Frame)
    (h : (runIterationBody f b dM kM sM l r).raised = true) :
    (runIterationBody f b dM kM sM l r).frame = Frame.ones l
    ∧ (runIterationBody f b dM kM sM l r).msg = "None" := by
  obtain ⟨fd, fp, fk, fs, fg⟩ := f
  cases fd <;> cases fp <;> cases fk <;> cases fs <;> cases fg <;>
    simp only [runIterationBody, Bool.false_eq_true, Bool.true_eq_false, if_true, if_false,
      ite_true, ite_false] at h ⊢ <;>
    first
      | exact detectionBranch_raised b dM l r h
      | exact depthBranch_raised b l r h
      | exact keypointsBranch_raised b kM l r h
      | exact stitchBranch_raised b l r h
      | exact segBranch_raised b sM l r h

/-- C2's theorem: whenever the dispatched pipeline raises, the published
frame is the ones-filler of the left input, but the published message is the
initial `'None'`, never the generic `'OpenCV exception!...'` — the except
clause's guard compares against the empty string, which the message never
is.  (The format tag is not claimed here: it can be a stale `'BGR'` from a
partially completed two-sided branch.) -/
theorem engine_exception_publishes_none (f : ModeFlags) (b : PipeBeh)
    (dM kM sM : String) (l r : Frame)
    (h : (runIteration f b dM kM sM l r).raised = true) :
    (runIteration f b dM kM sM l r).frame = Frame.ones l
    ∧ (runIteration f b dM kM sM l r).msg = "None"
    ∧ "None" ≠ "OpenCV exception!..." := by
  have hb : (runIterationBody f b dM kM sM l r).raised = true := by
    rw [runIteration] at h
    split at h
    · exact h
    · exact h
  obtain ⟨hf, hm⟩ := runIterationBody_raised f b dM kM sM l r hb
  have hiter : runIteration f b dM kM sM l r = runIterationBody f b dM kM sM l r := by
    rw [runIteration]
    split
    case isTrue hc => rw [hm] at hc; simp at hc
    case isFalse => rfl
  rw [hiter]
  exact ⟨hf, hm, by decide⟩

/-- A behaviour record in which every pipeline raises. -/
def exnBeh : PipeBeh :=
  ⟨fun _ => .exn, fun _ _ => .exn, fun _ _ => .exn, fun _ _ => .exn, fun _ => .exn⟩

/-- Mode flags with only `depth` set. -/
def depthOnlyFlags : ModeFlags := ⟨false, true, false, false, false⟩

/-- Mode flags with no mode set. -/
def noFlags : ModeFlags := ⟨false, false, false, false, false⟩

/-- Witness for C2: with only the depth flag set and a raising depth
pipeline, the iteration publishes the filler frame and the message `'None'`. -/
theorem engine_exception_publishes_none_witness :
    (runIteration depthOnlyFlags exnBeh "" "" "" (Frame.raw 0) (Frame.raw 1)).frame
      = Frame.ones (Frame.raw 0)
    ∧ (runIteration depthOnlyFlags exnBeh "" "" "" (Frame.raw 0) (Frame.raw 1)).msg = "None"
    ∧ "None" ≠ "OpenCV exception!..." :=
  engine_exception_publishes_none depthOnlyFlags exnBeh "" "" "" (Frame.raw 0) (Frame.raw 1)
    (by decide)

/-- C3: the `if/elif` chain dispatches exactly the highest-priority active
mode in the order Detection > Depth > Keypoints > Stitch > Segmentation, and
when no mode flag is set the iteration executes no pipeline and publishes the
initial locals without raising (the loop continues). -/
theorem mode_priority_dispatch (f : ModeFlags) (b : PipeBeh)
    (dM kM sM : String) (l r : Frame) :
    (runIteration f b dM kM sM l r).executed = specSelectMode f
    ∧ (specSelectMode f = none →
        runIteration f b dM kM sM l r = ⟨Frame.ones l, "GRAY", "None", none, false⟩) := by
  constructor
  · have hsame : (runIteration f b dM kM sM l r).executed
        = (runIterationBody f b dM kM sM l r).executed := by
      rw [runIteration]
      split <;> rfl
    rw [hsame]
    exact runIterationBody_executed f b dM kM sM l r
  · intro hnone
    have hall : f.detection = false ∧ f.depth = false ∧ f.keypoints = false
        ∧ f.stitch = false ∧ f.segmentation = false := by
      obtain ⟨fd, fp, fk, fs, fg⟩ := f
      cases fd <;> cases fp <;> cases fk <;> cases fs <;> cases fg <;>
        simp_all [specSelectMode, modePriority, modeActive]
    obtain ⟨h1, h2, h3, h4, h5⟩ := hall
    rw [runIteration, runIterationBody, h1, h2, h3, h4, h5]
    rfl

/-- Witness for C3: the no-flag iteration publishes the defaults, and with
several flags set (depth, stitch, segmentation) exactly depth executes. -/
theorem mode_priority_dispatch_witness :
    runIteration noFlags exnBeh "" "" "" (Frame.raw 0) (Frame.raw 1)
      = ⟨Frame.ones (Frame.raw 0), "GRAY", "None", none, false⟩
    ∧ (runIteration ⟨false, true, false, true, true⟩ exnBeh "" "" "" (Frame.raw 0)
        (Frame.raw 1)).executed = specSelectMode ⟨false, true, false, true, true⟩ :=
  ⟨(mode_priority_dispatch noFlags exnBeh "" "" "" (Frame.raw 0) (Frame.raw 1)).2 rfl,
   (mode_priority_dispatch ⟨false, true, false, true, true⟩ exnBeh "" "" ""
      (Frame.raw 0) (Frame.raw 1)).1⟩

/-! ## Synchronized capture trigger (`capture.py`, `CaptureThread`)

The per-coordinator state is the `_saveFrame` flag (PendingTrigger) and the
sequential save index `_idxFrame`.  One loop tick (lines 53-60) observes the
pressed key; on `'s'` it first calls the peer's `triggerSave` (only on an
actual key press) and then saves; on an observed `_saveFrame` it saves;
`onSave` (lines 64-73) increments the index and clears the flag.  A tick is
modelled as a function of the key and the state, reporting whether a save
happened and how many `triggerSave` calls were issued to the peer. -/

/-- The `CaptureThread` state relevant to the trigger protocol. -/
structure CoordState where
  saveFrame : Bool
  idxFrame : ℕ
deriving DecidableEq

/-- Observable effects of a single loop tick. -/
structure TickEffects where
  didSave : Bool
  peerTriggers : ℕ
deriving DecidableEq

/-- One loop tick of `CaptureThread.run` (lines 57-60): `keyS` is whether the
user pressed `'s'` this tick, `hasPeer` whether `otherThd` is connected. -/
def captureTick (keyS hasPeer : Bool) (st : CoordState) : CoordState × TickEffects :=
  if keyS || st.saveFrame then
    (⟨false, st.idxFrame + 1⟩, ⟨true, if keyS && hasPeer then 1 else 0⟩)
  else (st, ⟨false, 0⟩)

/-- `CaptureThread.triggerSave` (lines 75-79): the peer sets the flag. -/
def triggerSave (st : CoordState) : CoordState := ⟨true, st.idxFrame⟩

/-- A run of `k` ticks with no user key press, counting the saves performed. -/
def runQuietTicks : ℕ → CoordState → CoordState × ℕ
  | 0, st => (st, 0)
  | Nat.succ k, st =>
    let step := captureTick false false st
    let rest := runQuietTicks k step.1
    (rest.1, (if step.2.didSave then 1 else 0) + rest.2)

/-- Quiet ticks from a cleared flag do nothing. -/
lemma runQuietTicks_cleared (k : ℕ) (i : ℕ) :
    runQuietTicks k ⟨false, i⟩ = (⟨false, i⟩, 0) := by
  induction k with
  | zero => rfl
  | succ k ih =>
    rw [runQuietTicks]
    rw [show captureTick false false ⟨false, i⟩ = (⟨false, i⟩, ⟨false, 0⟩) from rfl]
    rw [ih]
    rfl

/-- C8: (1) a tick with a local `'s'` press issues exactly one trigger to the
connected peer; (2) a tick without a key press — in particular a
trigger-initiated save — issues no trigger; (3) once the flag is observed
true, the tick saves and clears the flag; (4) after the peer sets the flag,
any positive number of quiet ticks performs exactly one save, incrementing
the index once: the trigger is consumed once and never re-fires. -/
theorem trigger_protocol (st : CoordState) (hasPeer : Bool) (k : ℕ) :
    ((captureTick true hasPeer st).2.peerTriggers = if hasPeer then 1 else 0)
    ∧ ((captureTick false hasPeer st).2.peerTriggers = 0)
    ∧ (st.saveFrame = true →
        (captureTick false hasPeer st).2.didSave = true
        ∧ (captureTick false hasPeer st).1.saveFrame = false)
    ∧ (st.saveFrame = false →
        runQuietTicks (k + 1) (triggerSave st) = (⟨false, st.idxFrame + 1⟩, 1)) := by
  obtain ⟨sf, i⟩ := st
  refine ⟨?_, ?_, ?_, ?_⟩
  · cases hasPeer <;> rfl
  · cases sf <;> rfl
  · intro h
    subst h
    exact ⟨rfl, rfl⟩
  · intro h
    simp only at h
    subst h
    rw [runQuietTicks]
    rw [show captureTick false false (triggerSave ⟨false, i⟩) = (⟨false, i + 1⟩, ⟨true, 0⟩)
      from rfl]
    rw [runQuietTicks_cleared k (i + 1)]
    rfl

/-- Witness for C8: a freshly triggered coordinator consumes the trigger in
one save over three quiet ticks. -/
theorem trigger_protocol_witness :
    ((captureTick true true ⟨false, 5⟩).2.peerTriggers = if true then 1 else 0)
    ∧ ((captureTick false true ⟨false, 5⟩).2.peerTriggers = 0)
    ∧ runQuietTicks 3 (triggerSave ⟨false, 5⟩) = (⟨false, 6⟩, 1) :=
  ⟨(trigger_protocol ⟨false, 5⟩ true 2).1,
   (trigger_protocol ⟨false, 5⟩ true 2).2.1,
   (trigger_protocol ⟨false, 5⟩ true 2).2.2.2 rfl⟩

/-! ## Watershed palette (`_runSegmentationWatershed`, lines 416-423)

`self._wsdColors` is regenerated by `np.random.choice(range(256),
size=(len(uniqueMarkers), 3))` whenever it holds fewer colors than there are
distinct markers.  The fresh random draw is a parameter of the embedding. -/

/-- An RGB color drawn for a watershed marker. -/
abbrev WsdColor := ℕ × ℕ × ℕ

/-- Lines 420-421: replace the whole palette by the fresh draw when it is
shorter than the number of distinct markers, otherwise keep it. -/
def updateWsdColors (wsdColors fresh : List WsdColor) (nMarkers : ℕ) : List WsdColor :=
  if wsdColors.length < nMarkers then fresh else wsdColors

/-- Counterexample for C9: growing the palette from one to two entries with a
fresh random draw replaces the color at the already existing index 0 — the
palette is not index-stable across growth. -/
theorem palette_stability_counterexample :
    updateWsdColors [(1, 2, 3)] [(9, 9, 9), (8, 8, 8)] 2 = [(9, 9, 9), (8, 8, 8)]
    ∧ (updateWsdColors [(1, 2, 3)] [(9, 9, 9), (8, 8, 8)] 2)[0]? ≠ some ((1 : ℕ), 2, 3) := by
  constructor
  · rfl
  · decide

/-- C9 (amended): the palette changes only when more distinct markers appear
than it holds entries for (no growth means every index keeps its color), but
on growth the whole palette is replaced by the fresh random draw, so existing
indices do not keep their previous colors. -/
theorem palette_growth_amended (wsdColors fresh : List WsdColor) (n : ℕ) :
    (wsdColors.length ≥ n → updateWsdColors wsdColors fresh n = wsdColors)
    ∧ (wsdColors.length < n → updateWsdColors wsdColors fresh n = fresh) := by
  constructor
  · intro h
    exact if_neg (by omega)
  · intro h
    exact if_pos h

/-- Witness for C9's amended theorem on concrete palettes. -/
theorem palette_growth_amended_witness :
    updateWsdColors [(1, 2, 3)] [(9, 9, 9), (8, 8, 8)] 1 = [(1, 2, 3)]
    ∧ updateWsdColors [] [(7, 7, 7)] 1 = [(7, 7, 7)] :=
  ⟨(palette_growth_amended [(1, 2, 3)] [(9, 9, 9), (8, 8, 8)] 1).1 (by decide),
   (palette_growth_amended [] [(7, 7, 7)] 1).2 (by decide)⟩

end Vision3D
